import Mathlib

/-!
Shallow embedding of parts of the venus chain node:
the `chain status` / `chain set-head` CLI commands (src/cmd/chain.go),
the miner-state API (`StateVMCirculatingSupplyInternal`,
`StateMinerPreCommitDepositForPower` in the chain submodule),
the wallet datastore backend (`DSBackend.NewAddress`),
the in-memory repo (`MemRepo.SetAPIToken`),
and the fork-choice rule of the sync engine (modelled from the spec,
its implementation lying outside the provided sources).

Go conventions are embedded as follows: a Go function returning
`(T, error)` becomes a Lean function returning `T × Option GoErr`
(Go's zero value paired with `some e` on failure) or `Except GoErr T`
when the partial value is never consulted; methods that mutate a
receiver return the updated receiver explicitly; `fmt`-style printing
of several arguments joins them with single spaces, one line per
`Println` call.
-/

/-- Error values: Go `error`, modelled by its message string. -/
abbrev GoErr := String

/-- Block content hashes (`cid.Cid`), modelled abstractly by naturals;
the number stands for the block's canonical serialization, ordered as
the serializations are ordered lexicographically. -/
abbrev Cid := Nat

/-! ## Sync target tracker view (src/cmd/chain.go, chainStatusCmd)

The `chainStatusCmd` run function reads the tracker's active buckets and
its history and renders one block of lines per target.  The
`syncTypes.Target` struct itself is not among the provided sources; its
fields are taken from the spec's data model (§3) and from how
src/cmd/chain.go reads them. -/

/-- Modelled from the spec: the §4.5 state machine of a sync Target,
`Idle → Fetching → Validating → {Complete | Failed}`; the
`syncTypes` stage constants are not among the provided sources, only
`StageIdle` is mentioned by src/cmd/chain.go. -/
inductive SyncStage where
  | StageIdle
  | StageFetching
  | StageValidating
  | StageComplete
  | StageFailed
deriving DecidableEq, Repr

/-- What chainStatusCmd reads off a tip-set: `EnsureHeight()` and
`Key().String()`. -/
structure TipSetView where
  height : Int
  key : String
deriving DecidableEq, Repr

/-- Modelled from the spec: the fields of a sync Target (§3) as read by
src/cmd/chain.go — `Base`, `Head`, `Current` (nil until a tip-set has
been fetched), `State`, and `Err` (the terminal failure reason,
rendered as its string). -/
structure Target where
  base : TipSetView
  head : TipSetView
  current : Option TipSetView
  state : SyncStage
  err : String
deriving DecidableEq, Repr

/-- The tracker as chainStatusCmd consumes it: `Buckets()` (active
targets, in order) and `History()` (completed targets, front to back). -/
structure Tracker where
  buckets : List Target
  history : List Target

/-- The block of lines chainStatusCmd prints for one target, numbered
`n`; a line-by-line transcription of the loop body in
src/cmd/chain.go (both loops print the identical block). -/
def renderTarget (n : Nat) (t : Target) : List String :=
  ["SyncTarget: " ++ toString n,
   "\tBase: " ++ toString t.base.height ++ " " ++ t.base.key,
   "\tTarget: " ++ toString t.head.height ++ " " ++ t.head.key]
  ++ (match t.current with
      | some c => ["\tCurrent: " ++ toString c.height ++ " " ++ c.key]
      | none => ["\tCurrent:"])
  ++ [(if t.state ≠ SyncStage.StageIdle then "\tStatus:Syncing" else "\tStatus:Wait"),
      "\tErr: " ++ t.err,
      ""]

/-- One of the two printing loops of chainStatusCmd: renders each
target in turn, incrementing the running counter `count` and printing
`count + 1` as the target's number. -/
def renderLoop (count : Nat) : List Target → List String
  | [] => []
  | t :: ts => renderTarget (count + 1) t ++ renderLoop (count + 1) ts

/-- The full output of `chain status`: the active-buckets loop printed
with indices starting at 0, then the history loop with its counter
initialized to `len(targets)`. -/
def chainStatusRun (tr : Tracker) : List String :=
  renderLoop 0 tr.buckets ++ renderLoop tr.buckets.length tr.history

/-! Helper lemmas about the rendering. -/

theorem renderTarget_err_mem (n : Nat) (t : Target) :
    ("\tErr: " ++ t.err) ∈ renderTarget n t := by
  unfold renderTarget
  cases t.current <;> simp

theorem renderLoop_mem_of_mem {t : Target} {l : List Target} (count : Nat)
    (h : t ∈ l) {s : String} (hs : ∀ n, s ∈ renderTarget n t) :
    s ∈ renderLoop count l := by
  induction l generalizing count with
  | nil => cases h
  | cons a as ih =>
    rcases List.mem_cons.mp h with rfl | h'
    · exact List.mem_append_left _ (hs (count + 1))
    · exact List.mem_append_right _ (ih (count + 1) h')

theorem renderLoop_eq_enum (count : Nat) (l : List Target) :
    renderLoop count l
      = (l.enumFrom count |>.map fun p => renderTarget (p.1 + 1) p.2).flatten := by
  induction l generalizing count with
  | nil => rfl
  | cons a as ih =>
    simp [renderLoop, List.enumFrom, ih]

/-- C1: every target in the tracker's History contributes its recorded
error string verbatim to the status output, on the line printed after
"Err:". -/
theorem history_err_visible (tr : Tracker) (t : Target) (h : t ∈ tr.history) :
    ("\tErr: " ++ t.err) ∈ chainStatusRun tr := by
  unfold chainStatusRun
  exact List.mem_append_right _
    (renderLoop_mem_of_mem _ h fun n => renderTarget_err_mem n t)

/-- Witness for C1 at a concrete tracker carrying one failed target in
its history. -/
theorem history_err_visible_witness :
    ("\tErr: " ++ "fetch aborted") ∈ chainStatusRun
      ⟨[], [⟨⟨3, "k0"⟩, ⟨7, "k1"⟩, none, SyncStage.StageFailed, "fetch aborted"⟩]⟩ :=
  history_err_visible
    ⟨[], [⟨⟨3, "k0"⟩, ⟨7, "k1"⟩, none, SyncStage.StageFailed, "fetch aborted"⟩]⟩
    ⟨⟨3, "k0"⟩, ⟨7, "k1"⟩, none, SyncStage.StageFailed, "fetch aborted"⟩
    (List.mem_singleton.mpr rfl)

/-- C5: the two printing loops of chainStatusCmd amount to a single
enumeration of all active targets followed by all history targets,
numbered consecutively from 1 with no gaps (entry at position `i` of
the concatenated list is printed as target number `i + 1`). -/
theorem chainStatus_enumerates (tr : Tracker) :
    chainStatusRun tr
      = (((tr.buckets ++ tr.history).enum).map
          fun p => renderTarget (p.1 + 1) p.2).flatten := by
  unfold chainStatusRun
  rw [renderLoop_eq_enum, renderLoop_eq_enum, List.enum,
    List.enumFrom_append, List.map_append, List.flatten_append, Nat.zero_add]

theorem renderTarget_current_none {t : Target} (n : Nat) (h : t.current = none) :
    "\tCurrent:" ∈ renderTarget n t := by
  unfold renderTarget
  rw [h]
  simp

theorem renderTarget_current_some {t : Target} {c : TipSetView} (n : Nat)
    (h : t.current = some c) :
    ("\tCurrent: " ++ toString c.height ++ " " ++ c.key) ∈ renderTarget n t := by
  unfold renderTarget
  rw [h]
  simp

/-- C6: for every target printed by chain status, active or from the
history, a nil `Current` yields the bare line "\tCurrent:" (no
dereference of the nil tip-set) while a non-nil `Current` yields the
line carrying its height and key. -/
theorem current_nil_safe (tr : Tracker) (t : Target)
    (h : t ∈ tr.buckets ∨ t ∈ tr.history) :
    (t.current = none → "\tCurrent:" ∈ chainStatusRun tr) ∧
    (∀ c, t.current = some c →
      ("\tCurrent: " ++ toString c.height ++ " " ++ c.key) ∈ chainStatusRun tr) := by
  constructor
  · intro hn
    unfold chainStatusRun
    rcases h with hb | hh
    · exact List.mem_append_left _
        (renderLoop_mem_of_mem _ hb fun n => renderTarget_current_none n hn)
    · exact List.mem_append_right _
        (renderLoop_mem_of_mem _ hh fun n => renderTarget_current_none n hn)
  · intro c hc
    unfold chainStatusRun
    rcases h with hb | hh
    · exact List.mem_append_left _
        (renderLoop_mem_of_mem _ hb fun n => renderTarget_current_some n hc)
    · exact List.mem_append_right _
        (renderLoop_mem_of_mem _ hh fun n => renderTarget_current_some n hc)

/-- Witness for C6 at a concrete active target whose `Current` is nil. -/
theorem current_nil_safe_witness :
    "\tCurrent:" ∈ chainStatusRun
      ⟨[⟨⟨1, "b"⟩, ⟨4, "h"⟩, none, SyncStage.StageFetching, ""⟩], []⟩ :=
  (current_nil_safe
    ⟨[⟨⟨1, "b"⟩, ⟨4, "h"⟩, none, SyncStage.StageFetching, ""⟩], []⟩
    ⟨⟨1, "b"⟩, ⟨4, "h"⟩, none, SyncStage.StageFetching, ""⟩
    (Or.inl (List.mem_singleton.mpr rfl))).1 rfl

/-- A target terminated in the Failed state, as chainStatusCmd would
receive it from the tracker's history. -/
def exFailedTarget : Target :=
  ⟨⟨3, "b0"⟩, ⟨9, "h0"⟩, some ⟨5, "c0"⟩, SyncStage.StageFailed, ""⟩

/-- The same target terminated in the Complete state instead. -/
def exCompleteTarget : Target :=
  ⟨⟨3, "b0"⟩, ⟨9, "h0"⟩, some ⟨5, "c0"⟩, SyncStage.StageComplete, ""⟩

/-- C2: the status command does not report the §4.5 state: it prints
only "Status:Syncing" (any non-Idle state) or "Status:Wait" (Idle), so
its entire output for a Failed target is identical to that for an
otherwise-equal Complete target — the five states are not
distinguishable from the output, against the claim (the code itself
carries a TODO "give each target a status"). -/
theorem status_collapses_states :
    exFailedTarget.state = SyncStage.StageFailed ∧
    exCompleteTarget.state = SyncStage.StageComplete ∧
    exFailedTarget.state ≠ exCompleteTarget.state ∧
    chainStatusRun ⟨[exFailedTarget], []⟩ = chainStatusRun ⟨[exCompleteTarget], []⟩ ∧
    "\tStatus:Syncing" ∈ chainStatusRun ⟨[exFailedTarget], []⟩ :=
  ⟨rfl, rfl, by decide, rfl, by decide⟩

/-! ## Tip-set keys and the set-head command (src/cmd/chain.go, chainSetHeadCmd) -/

/-- Modelled from the spec: a TipSetKey (§3) is an ordered, deduplicated
set of block content-hashes; the `block.TipSetKey` type is not among the
provided sources. -/
structure TipSetKey where
  cids : List Cid
deriving DecidableEq, Repr

/-- Sorted-insert of a cid, dropping it when already present; building
block of the ordered deduplicated cid set. -/
def insertCid (c : Cid) : List Cid → List Cid
  | [] => [c]
  | x :: xs =>
    if c = x then x :: xs
    else if c < x then c :: x :: xs
    else x :: insertCid c xs

/-- Modelled from the spec: `block.NewTipSetKey` (not among the provided
sources) canonicalizes the given cids into the ordered, deduplicated set
of §3. -/
def NewTipSetKey (cids : List Cid) : TipSetKey :=
  ⟨cids.foldr insertCid []⟩

/-- Modelled from the spec: the CLI helper `cidsFromSlice` (not among
the provided sources) decodes each argument string to a cid in order,
failing with the first decode error; the decoder itself (`cid.Decode`,
an external library) is a parameter. -/
def cidsFromSlice (decode : String → Except GoErr Cid) :
    List String → Except GoErr (List Cid)
  | [] => .ok []
  | a :: as =>
    match decode a with
    | .error e => .error e
    | .ok c =>
      match cidsFromSlice decode as with
      | .error e => .error e
      | .ok cs => .ok (c :: cs)

/-- The run function of `chain set-head`: parse the argument cids, build
a TipSetKey from them, and hand it to `ChainSetHead`, returning whatever
that returns. -/
def chainSetHeadRun (decode : String → Except GoErr Cid)
    (chainSetHead : TipSetKey → Option GoErr) (args : List String) : Option GoErr :=
  match cidsFromSlice decode args with
  | .error e => some e
  | .ok headCids => chainSetHead (NewTipSetKey headCids)

/-- C3: set-head is pure plumbing — when the arguments parse it calls
`ChainSetHead` on the key built from exactly the parsed cids and
returns its result unchanged (no weight comparison or fork-choice of
its own), when a cid fails to parse it returns that parse error, and it
succeeds iff parsing and `ChainSetHead` both succeed. -/
theorem setHead_passthrough (decode : String → Except GoErr Cid)
    (chainSetHead : TipSetKey → Option GoErr) (args : List String) :
    (∀ cids, cidsFromSlice decode args = .ok cids →
      chainSetHeadRun decode chainSetHead args = chainSetHead (NewTipSetKey cids)) ∧
    (∀ e, cidsFromSlice decode args = .error e →
      chainSetHeadRun decode chainSetHead args = some e) ∧
    (chainSetHeadRun decode chainSetHead args = none ↔
      ∃ cids, cidsFromSlice decode args = .ok cids ∧
        chainSetHead (NewTipSetKey cids) = none) := by
  unfold chainSetHeadRun
  refine ⟨fun cids hok => by rw [hok], fun e herr => by rw [herr], ?_⟩
  cases hp : cidsFromSlice decode args with
  | error e => simp
  | ok cids =>
    simp only []
    constructor
    · intro hs
      exact ⟨cids, rfl, hs⟩
    · rintro ⟨cids', hc, hs⟩
      cases hc
      exact hs

/-- Witness for C3: a concrete decoder, arguments, and an always-accept
ChainSetHead. -/
theorem setHead_passthrough_witness :
    chainSetHeadRun (fun s => if s = "x" then .ok 1 else .error "bad cid")
        (fun _ => none) ["x"]
      = (fun _ => none : TipSetKey → Option GoErr) (NewTipSetKey [1]) :=
  (setHead_passthrough (fun s => if s = "x" then .ok 1 else .error "bad cid")
    (fun _ => none) ["x"]).1 [1] rfl

/-! ## Fork-choice (spec §4.6; the resolver's implementation is not
among the provided sources) -/

/-- Modelled from the spec: a fully validated candidate chain as the
Fork-Choice Resolver sees it — its total weight and the TipSetKey of
its tip; the key's cid list stands for the tip-set's canonical
serialization, compared lexicographically. -/
structure Candidate where
  weight : Nat
  key : TipSetKey
deriving DecidableEq, Repr

/-- The candidate strictly wins against the incumbent: strictly greater
weight, or an exact weight tie broken by the lexicographically smaller
canonical serialization. -/
def beats (cand cur : Candidate) : Prop :=
  cur.weight < cand.weight ∨
    (cand.weight = cur.weight ∧ cand.key.cids < cur.key.cids)

instance (x y : Candidate) : Decidable (beats x y) := by
  unfold beats; infer_instance

/-- Modelled from the spec: the Fork-Choice Resolver's head-selection
rule (§4.6) — the candidate becomes the new head iff its weight
strictly exceeds the current head's; on an exact tie the chain with the
lexicographically smallest canonical serialization is preferred
(without the tie-break, processing two equal-weight candidates in the
two possible orders would end at different heads, breaking the spec's
order-independence property of §8). -/
def forkChoice (cur cand : Candidate) : Candidate :=
  if cur.weight < cand.weight then cand
  else if cand.weight = cur.weight ∧ cand.key.cids < cur.key.cids then cand
  else cur

theorem forkChoice_eq_beats (cur cand : Candidate) :
    forkChoice cur cand = if beats cand cur then cand else cur := by
  unfold forkChoice beats
  split_ifs <;> tauto

theorem beats_asymm {x y : Candidate} (h : beats x y) : ¬ beats y x := by
  rcases h with h | ⟨hw, hk⟩
  · rintro (h' | ⟨hw', _⟩)
    · omega
    · omega
  · rintro (h' | ⟨_, hk'⟩)
    · omega
    · exact absurd (lt_trans hk hk') (lt_irrefl _)

theorem beats_trans {x y z : Candidate} (hxy : beats x y) (hyz : beats y z) :
    beats x z := by
  rcases hxy with h | ⟨hw, hk⟩ <;> rcases hyz with h' | ⟨hw', hk'⟩
  · exact Or.inl (by omega)
  · exact Or.inl (by omega)
  · exact Or.inl (by omega)
  · exact Or.inr ⟨by omega, lt_trans hk hk'⟩

theorem eq_of_not_beats {x y : Candidate} (hxy : ¬ beats x y) (hyx : ¬ beats y x) :
    x = y := by
  unfold beats at hxy hyx
  push_neg at hxy hyx
  obtain ⟨x, ⟨xk⟩⟩ := x
  obtain ⟨y, ⟨yk⟩⟩ := y
  simp only at hxy hyx
  have hw : x = y := by omega
  subst hw
  have hk : xk = yk := le_antisymm (hyx.2 rfl) (hxy.2 rfl)
  rw [hk]

/-- C4 counterexample: under the §4.6 rule an exact-weight tie IS
decided by the tie-break — a candidate of merely equal weight but
lexicographically smaller serialization does advance the head,
contradicting the claim that an equal-weight candidate never does. -/
theorem forkChoice_tie_advances :
    forkChoice ⟨7, ⟨[5]⟩⟩ ⟨7, ⟨[2]⟩⟩ = ⟨7, ⟨[2]⟩⟩ ∧
    (⟨7, ⟨[2]⟩⟩ : Candidate).weight = (⟨7, ⟨[5]⟩⟩ : Candidate).weight ∧
    (⟨7, ⟨[2]⟩⟩ : Candidate) ≠ ⟨7, ⟨[5]⟩⟩ := by
  refine ⟨?_, rfl, by decide⟩
  unfold forkChoice
  rw [if_neg (lt_irrefl 7), if_pos ⟨rfl, by decide⟩]

/-- C4 (amended): a strictly heavier candidate always advances the
head, a strictly lighter one never does, an exact weight tie is decided
by the lexicographically smaller canonical serialization, and the final
head after two candidates is independent of their arrival order. -/
theorem forkChoice_spec (h a b : Candidate) :
    (forkChoice h a = a ∨ forkChoice h a = h) ∧
    (a.weight < h.weight → forkChoice h a = h) ∧
    (h.weight < a.weight → forkChoice h a = a) ∧
    (a.weight = h.weight →
      forkChoice h a = if a.key.cids < h.key.cids then a else h) ∧
    forkChoice (forkChoice h a) b = forkChoice (forkChoice h b) a := by
  refine ⟨?_, ?_, ?_, ?_, ?_⟩
  · rw [forkChoice_eq_beats]; split_ifs <;> simp
  · intro hlt
    rw [forkChoice_eq_beats, if_neg]
    rintro (h' | ⟨hw, _⟩) <;> omega
  · intro hlt
    rw [forkChoice_eq_beats, if_pos (show beats a h from Or.inl hlt)]
  · intro hw
    rw [forkChoice_eq_beats]
    split_ifs with h1 h2 h2
    · rfl
    · rcases h1 with h1 | ⟨_, h1⟩
      · omega
      · exact absurd h1 h2
    · exact absurd (Or.inr ⟨hw, h2⟩) h1
    · rfl
  · rw [forkChoice_eq_beats h a, forkChoice_eq_beats h b]
    by_cases hA : beats a h <;> by_cases hB : beats b h
    · rw [if_pos hA, if_pos hB, forkChoice_eq_beats, forkChoice_eq_beats]
      by_cases hba : beats b a
      · rw [if_pos hba, if_neg (beats_asymm hba)]
      · by_cases hab : beats a b
        · rw [if_neg hba, if_pos hab]
        · rw [if_neg hba, if_neg hab, eq_of_not_beats hab hba]
    · rw [if_pos hA, if_neg hB, forkChoice_eq_beats, forkChoice_eq_beats]
      have hba : ¬ beats b a := fun hba => hB (beats_trans hba hA)
      rw [if_neg hba, if_pos hA]
    · rw [if_neg hA, if_pos hB, forkChoice_eq_beats, forkChoice_eq_beats]
      have hab : ¬ beats a b := fun hab => hA (beats_trans hab hB)
      rw [if_pos hB, if_neg hab]
    · rw [if_neg hA, if_neg hB, forkChoice_eq_beats, forkChoice_eq_beats]
      rw [if_neg hA, if_neg hB]

/-- Witness for C4's theorem: a strictly heavier candidate advances the
head at a concrete pair. -/
theorem forkChoice_spec_witness :
    forkChoice ⟨5, ⟨[3]⟩⟩ ⟨9, ⟨[4]⟩⟩ = ⟨9, ⟨[4]⟩⟩ :=
  (forkChoice_spec ⟨5, ⟨[3]⟩⟩ ⟨9, ⟨[4]⟩⟩ ⟨0, ⟨[]⟩⟩).2.2.1 (by decide)

/-! ## Miner-state API (chain submodule: StateVMCirculatingSupplyInternal,
StateMinerPreCommitDepositForPower)

The API's collaborators (chain reader, state-tree loader, actor state
accessors) are external to these functions and appear as parameters;
the control flow of the two functions is transcribed statement by
statement.  Go `big.Int` arithmetic is embedded as `Int`; Go's
`big.Div` performs Euclidean division (nonnegative remainder), which is
`Int.ediv`. -/

/-- What the miner-state API reads off a tip-set: `EnsureHeight()` and
`At(0).ParentStateRoot` (heights are `abi.ChainEpoch`, an int64). -/
structure TipSet where
  ensureHeight : Int
  parentStateRoot : Nat
deriving DecidableEq, Repr

/-- State roots are content hashes, abstracted as naturals. -/
abbrev StateRoot := Nat

/-- A loaded state tree, an abstract handle threaded between the
collaborator calls. -/
abbrev StateTree := Nat

/-- The detailed circulating-supply record returned by
`GetCirculatingSupplyDetailed`; its Go zero value pairs with every
error return. -/
structure CirculatingSupply where
  filVested : Int
  filMined : Int
  filBurnt : Int
  filLocked : Int
  filCirculating : Int
deriving DecidableEq, Repr

/-- The Go zero value `chain.CirculatingSupply{}`. -/
def CirculatingSupply.zero : CirculatingSupply := ⟨0, 0, 0, 0, 0⟩

/-- `StateVMCirculatingSupplyInternal`: fetch the tip-set, its recorded
state root, load the state tree from that root, and compute the
detailed circulating supply at the tip-set's height; each failing step
returns its error with the zero-valued supply. -/
def StateVMCirculatingSupplyInternal
    (getTipSet : TipSetKey → Except GoErr TipSet)
    (getTipSetStateRoot : TipSetKey → Except GoErr StateRoot)
    (loadState : StateRoot → Except GoErr StateTree)
    (getCirculatingSupplyDetailed : Int → StateTree → CirculatingSupply × Option GoErr)
    (tsk : TipSetKey) : CirculatingSupply × Option GoErr :=
  match getTipSet tsk with
  | .error e => (CirculatingSupply.zero, some e)
  | .ok ts =>
    match getTipSetStateRoot tsk with
    | .error e => (CirculatingSupply.zero, some e)
    | .ok root =>
      match loadState root with
      | .error e => (CirculatingSupply.zero, some e)
      | .ok sTree => getCirculatingSupplyDetailed ts.ensureHeight sTree

/-- C7: StateVMCirculatingSupplyInternal short-circuits — a failure of
the tip-set lookup, the state-root lookup, or the state-tree load is
returned as-is together with the zero-valued CirculatingSupply, and
when all three succeed the result is exactly the detailed supply
computed at the tip-set's height on the loaded tree. -/
theorem circSupply_spec
    (getTipSet : TipSetKey → Except GoErr TipSet)
    (getTipSetStateRoot : TipSetKey → Except GoErr StateRoot)
    (loadState : StateRoot → Except GoErr StateTree)
    (getCirculatingSupplyDetailed : Int → StateTree → CirculatingSupply × Option GoErr)
    (tsk : TipSetKey) :
    (∀ e, getTipSet tsk = .error e →
      StateVMCirculatingSupplyInternal getTipSet getTipSetStateRoot loadState
          getCirculatingSupplyDetailed tsk = (CirculatingSupply.zero, some e)) ∧
    (∀ ts e, getTipSet tsk = .ok ts → getTipSetStateRoot tsk = .error e →
      StateVMCirculatingSupplyInternal getTipSet getTipSetStateRoot loadState
          getCirculatingSupplyDetailed tsk = (CirculatingSupply.zero, some e)) ∧
    (∀ ts root e, getTipSet tsk = .ok ts → getTipSetStateRoot tsk = .ok root →
      loadState root = .error e →
      StateVMCirculatingSupplyInternal getTipSet getTipSetStateRoot loadState
          getCirculatingSupplyDetailed tsk = (CirculatingSupply.zero, some e)) ∧
    (∀ ts root sTree, getTipSet tsk = .ok ts → getTipSetStateRoot tsk = .ok root →
      loadState root = .ok sTree →
      StateVMCirculatingSupplyInternal getTipSet getTipSetStateRoot loadState
          getCirculatingSupplyDetailed tsk
        = getCirculatingSupplyDetailed ts.ensureHeight sTree) := by
  unfold StateVMCirculatingSupplyInternal
  refine ⟨fun e h1 => by simp [h1], fun ts e h1 h2 => by simp [h1, h2],
    fun ts root e h1 h2 h3 => by simp [h1, h2, h3],
    fun ts root sTree h1 h2 h3 => by simp [h1, h2, h3]⟩

/-- Witness for C7: a concrete failing tip-set lookup yields the zero
supply with that error. -/
theorem circSupply_spec_witness :
    StateVMCirculatingSupplyInternal (fun _ => .error "tipset not found")
        (fun _ => .ok 0) (fun _ => .ok 0)
        (fun _ _ => (CirculatingSupply.zero, none)) ⟨[1]⟩
      = (CirculatingSupply.zero, some "tipset not found") :=
  (circSupply_spec (fun _ => .error "tipset not found") (fun _ => .ok 0)
    (fun _ => .ok 0) (fun _ _ => (CirculatingSupply.zero, none)) ⟨[1]⟩).1
    "tipset not found" rfl

/-! ## Wallet datastore backend (src/pkg/wallet/dsbackend.go, NewAddress) -/

/-- Wallet addresses: `address.Undef` or a concrete address. -/
inductive Address where
  | undef
  | addr (id : Nat)
deriving DecidableEq, Repr

/-- go-address protocol constant `address.SECP256K1`. -/
def SECP256K1 : Nat := 1

/-- go-address protocol constant `address.BLS`. -/
def BLS : Nat := 3

/-- The DSBackend's mutable content as NewAddress can affect it: the
set of stored keys/addresses (cache and datastore together). -/
structure DSBackend where
  stored : List Address
deriving DecidableEq, Repr

/-- `DSBackend.NewAddress`: switch on the protocol, delegating to
`newBLSAddress` or `newSecpAddress` (key generation and storage,
external randomness — parameters here), and rejecting every other
protocol with an "Unknown address protocol" error, leaving the backend
untouched. -/
def NewAddress
    (newBLSAddress newSecpAddress : DSBackend → String → DSBackend × Address × Option GoErr)
    (backend : DSBackend) (protocol : Nat) (password : String) :
    DSBackend × Address × Option GoErr :=
  if protocol = BLS then newBLSAddress backend password
  else if protocol = SECP256K1 then newSecpAddress backend password
  else (backend, Address.undef, some ("Unknown address protocol " ++ toString protocol))

/-- C8: for every protocol other than BLS and SECP256K1, NewAddress
returns the undefined address with the "Unknown address protocol"
error and leaves the backend exactly as it was; key generation and
storage are attempted only for BLS and SECP256K1, whose branches are
exactly the respective helpers. -/
theorem newAddress_unknown_protocol
    (newBLSAddress newSecpAddress : DSBackend → String → DSBackend × Address × Option GoErr)
    (backend : DSBackend) (password : String) :
    (∀ protocol, protocol ≠ BLS → protocol ≠ SECP256K1 →
      NewAddress newBLSAddress newSecpAddress backend protocol password
        = (backend, Address.undef,
            some ("Unknown address protocol " ++ toString protocol))) ∧
    NewAddress newBLSAddress newSecpAddress backend BLS password
      = newBLSAddress backend password ∧
    NewAddress newBLSAddress newSecpAddress backend SECP256K1 password
      = newSecpAddress backend password := by
  refine ⟨fun protocol hb hs => ?_, ?_, ?_⟩
  · rw [NewAddress, if_neg hb, if_neg hs]
  · rw [NewAddress, if_pos rfl]
  · rw [NewAddress, if_neg (by decide), if_pos rfl]

/-- Witness for C8 at the Actor protocol (value 2): the backend is
returned unchanged with the unknown-protocol error. -/
theorem newAddress_unknown_protocol_witness :
    NewAddress (fun b _ => (b, Address.addr 7, none))
        (fun b _ => (b, Address.addr 8, none)) ⟨[]⟩ 2 "pw"
      = (⟨[]⟩, Address.undef, some ("Unknown address protocol " ++ toString 2)) :=
  (newAddress_unknown_protocol (fun b _ => (b, Address.addr 7, none))
    (fun b _ => (b, Address.addr 8, none)) ⟨[]⟩ "pw").1 2 (by decide) (by decide)

/-! ## In-memory repo (src/pkg/repo/mem.go, SetAPIToken) -/

/-- The MemRepo as SetAPIToken sees it: the stored API token bytes
(`nil` initially, modelled as the empty list). -/
structure MemRepo where
  token : List Nat
deriving DecidableEq, Repr

/-- `MemRepo.SetAPIToken`: store the argument only when no token bytes
are held yet (`len(mr.token) == 0`), and always return nil. -/
def SetAPIToken (mr : MemRepo) (token : List Nat) : MemRepo × Option GoErr :=
  (if mr.token.length = 0 then { mr with token := token } else mr, none)

/-- A sequence of SetAPIToken calls, threading the repo through. -/
def setAPITokenAll (mr : MemRepo) (calls : List (List Nat)) : MemRepo :=
  calls.foldl (fun r tok => (SetAPIToken r tok).1) mr

theorem setAPITokenAll_of_nonempty {mr : MemRepo} (h : mr.token ≠ [])
    (calls : List (List Nat)) : setAPITokenAll mr calls = mr := by
  induction calls with
  | nil => rfl
  | cons c cs ih =>
    have : (SetAPIToken mr c).1 = mr := by
      unfold SetAPIToken
      rw [if_neg (by simpa using h)]
    rw [setAPITokenAll, List.foldl_cons, this]
    exact ih

/-- C9: SetAPIToken is first-write-wins — every call returns nil, a
call on a repo already holding token bytes changes nothing, a call on
an empty repo stores its argument, and across any sequence of calls
starting from the fresh repo the stored token ends up as the first
non-empty argument of the sequence (or stays empty). -/
theorem setAPIToken_first_write_wins :
    (∀ mr tok, (SetAPIToken mr tok).2 = none) ∧
    (∀ mr tok, mr.token ≠ [] → (SetAPIToken mr tok).1 = mr) ∧
    (∀ mr tok, mr.token = [] → (SetAPIToken mr tok).1.token = tok) ∧
    (∀ calls, (setAPITokenAll ⟨[]⟩ calls).token
        = (calls.filter (fun t => !t.isEmpty)).headD []) := by
  refine ⟨fun mr tok => rfl, fun mr tok h => ?_, fun mr tok h => ?_, fun calls => ?_⟩
  · unfold SetAPIToken
    rw [if_neg (by simpa using h)]
  · unfold SetAPIToken
    rw [if_pos (by simp [h])]
  · induction calls with
    | nil => rfl
    | cons c cs ih =>
      have step : setAPITokenAll (⟨[]⟩ : MemRepo) (c :: cs)
          = setAPITokenAll ((SetAPIToken ⟨[]⟩ c).1) cs := rfl
      cases hc : c.isEmpty
      · have hne : c ≠ [] := by simpa [List.isEmpty_iff] using hc
        have h1 : (SetAPIToken (⟨[]⟩ : MemRepo) c).1 = ⟨c⟩ := rfl
        rw [step, h1, setAPITokenAll_of_nonempty hne]
        simp [List.filter_cons, hc]
      · have he : c = [] := List.isEmpty_iff.mp hc
        subst he
        have h1 : (SetAPIToken (⟨[]⟩ : MemRepo) []).1 = ⟨[]⟩ := rfl
        rw [step, h1]
        simpa [List.filter_cons] using ih

/-- Witness for C9: a repo already holding a token ignores a further
SetAPIToken call. -/
theorem setAPIToken_first_write_wins_witness :
    (SetAPIToken ⟨[5]⟩ [9]).1 = ⟨[5]⟩ :=
  setAPIToken_first_write_wins.2.1 ⟨[5]⟩ [9] (by decide)

/-! ## StateMinerPreCommitDepositForPower (chain submodule) -/

/-- Actor records in the state tree, abstract handles. -/
abbrev Actor := Nat

/-- Loaded market actor state, an abstract handle. -/
abbrev MarketState := Nat

/-- Loaded power actor state, an abstract handle. -/
abbrev PowerState := Nat

/-- Loaded reward actor state, an abstract handle. -/
abbrev RewardState := Nat

/-- The smoothed total-power estimate, an abstract handle. -/
abbrev FilterEstimate := Nat

/-- Builtin reward actor address (f02), `reward.Address`. -/
def rewardAddr : Nat := 2

/-- Builtin power actor address (f04), `power.Address`. -/
def powerAddr : Nat := 4

/-- Builtin market actor address (f05), `market.Address`. -/
def marketAddr : Nat := 5

/-- What StateMinerPreCommitDepositForPower reads off the
`miner.SectorPreCommitInfo` argument apart from its seal proof and
deal ids (those are consumed only through the `sectorSize` and
`verifyDeals` collaborators). -/
structure SectorPreCommitInfo where
  expiration : Int
deriving DecidableEq, Repr

/-- Go's `%v` of an error value: the message, or "<nil>" for nil. -/
def errStr : Option GoErr → String
  | some e => e
  | none => "<nil>"

/-- The 110/100 over-collateralization numerator applied on top of the
computed deposit (`initialPledgeNum`). -/
def initialPledgeNum : Int := 110

/-- The 110/100 over-collateralization denominator
(`initialPledgeDen`). -/
def initialPledgeDen : Int := 100

/-- `StateMinerPreCommitDepositForPower`: resolve the tip-set and its
parent state tree, the sector size, the sector's quality-adjusted
weight via the market actor, the smoothed total power via the power
actor, then the reward state's pre-commit deposit, and return that
deposit scaled by initialPledgeNum/initialPledgeDen with Euclidean
big-integer division (`big.Div`/`big.Mul`); every failing step returns
its (wrapped) error with a zero value. -/
def StateMinerPreCommitDepositForPower
    (getTipSet : TipSetKey → Except GoErr TipSet)
    (loadState : StateRoot → Except GoErr StateTree)
    (sectorSize : Except GoErr Nat)
    (getActor : StateTree → Nat → Actor × Bool × Option GoErr)
    (marketLoad : Actor → Except GoErr MarketState)
    (verifyDeals : MarketState → Nat → Int → Int → Except GoErr (Int × Int))
    (qaPowerForWeight : Nat → Int → Int → Int → Int)
    (powerLoad : Actor → Except GoErr PowerState)
    (totalPowerSmoothed : PowerState → Except GoErr FilterEstimate)
    (rewardLoad : Actor → Except GoErr RewardState)
    (preCommitDepositForPower : RewardState → FilterEstimate → Int → Except GoErr Int)
    (maddr : Nat) (pci : SectorPreCommitInfo) (tsk : TipSetKey) : Int × Option GoErr :=
  match getTipSet tsk with
  | .error e => (0, some e)
  | .ok ts =>
    match loadState ts.parentStateRoot with
    | .error e => (0, some e)
    | .ok sTree =>
      match sectorSize with
      | .error e => (0, some ("failed to get resolve size: " ++ e))
      | .ok ssize =>
        match getActor sTree marketAddr with
        | (mact, mfound, merr) =>
          if merr.isSome || !mfound then
            (0, some ("loading market actor " ++ toString maddr ++ ": " ++ errStr merr))
          else
            match marketLoad mact with
            | .error e =>
              (0, some ("loading market actor state " ++ toString maddr ++ ": " ++ e))
            | .ok ms =>
              match verifyDeals ms maddr ts.ensureHeight pci.expiration with
              | .error e => (0, some ("verifying deals for activation: " ++ e))
              | .ok (w, vw) =>
                let sectorWeight :=
                  qaPowerForWeight ssize (pci.expiration - ts.ensureHeight) w vw
                match getActor sTree powerAddr with
                | (pact, pfound, perr) =>
                  if perr.isSome || !pfound then
                    (0, some ("loading power actor: " ++ errStr perr))
                  else
                    match powerLoad pact with
                    | .error e => (0, some ("loading power actor state: " ++ e))
                    | .ok ps =>
                      match totalPowerSmoothed ps with
                      | .error e => (0, some ("failed to determine total power: " ++ e))
                      | .ok powerSmoothed =>
                        match getActor sTree rewardAddr with
                        | (ract, rfound, rerr) =>
                          if rerr.isSome || !rfound then
                            (0, some ("loading miner actor: " ++ errStr rerr))
                          else
                            match rewardLoad ract with
                            | .error e => (0, some ("loading reward actor state: " ++ e))
                            | .ok rewardState =>
                              match preCommitDepositForPower rewardState powerSmoothed
                                  sectorWeight with
                              | .error e =>
                                (0, some ("calculating precommit deposit: " ++ e))
                              | .ok deposit =>
                                (Int.ediv (deposit * initialPledgeNum) initialPledgeDen,
                                  none)

/-- C10: whenever StateMinerPreCommitDepositForPower succeeds, the
returned value is the reward state's computed pre-commit deposit
multiplied by initialPledgeNum = 110 and Euclidean-divided by
initialPledgeDen = 100. -/
theorem preCommitDeposit_markup
    (getTipSet : TipSetKey → Except GoErr TipSet)
    (loadState : StateRoot → Except GoErr StateTree)
    (sectorSize : Except GoErr Nat)
    (getActor : StateTree → Nat → Actor × Bool × Option GoErr)
    (marketLoad : Actor → Except GoErr MarketState)
    (verifyDeals : MarketState → Nat → Int → Int → Except GoErr (Int × Int))
    (qaPowerForWeight : Nat → Int → Int → Int → Int)
    (powerLoad : Actor → Except GoErr PowerState)
    (totalPowerSmoothed : PowerState → Except GoErr FilterEstimate)
    (rewardLoad : Actor → Except GoErr RewardState)
    (preCommitDepositForPower : RewardState → FilterEstimate → Int → Except GoErr Int)
    (maddr : Nat) (pci : SectorPreCommitInfo) (tsk : TipSetKey) (v : Int)
    (hsucc : StateMinerPreCommitDepositForPower getTipSet loadState sectorSize getActor
        marketLoad verifyDeals qaPowerForWeight powerLoad totalPowerSmoothed rewardLoad
        preCommitDepositForPower maddr pci tsk = (v, none)) :
    initialPledgeNum = 110 ∧ initialPledgeDen = 100 ∧
    ∃ rs fe sw deposit,
      preCommitDepositForPower rs fe sw = .ok deposit ∧
      v = Int.ediv (deposit * initialPledgeNum) initialPledgeDen := by
  unfold StateMinerPreCommitDepositForPower at hsucc
  cases h1 : getTipSet tsk with
  | error e => simp [h1] at hsucc
  | ok ts =>
  simp only [h1] at hsucc
  cases h2 : loadState ts.parentStateRoot with
  | error e => simp [h2] at hsucc
  | ok sTree =>
  simp only [h2] at hsucc
  cases h3 : sectorSize with
  | error e => simp [h3] at hsucc
  | ok ssize =>
  simp only [h3] at hsucc
  rcases h4 : getActor sTree marketAddr with ⟨mact, mfound, merr⟩
  simp only [h4] at hsucc
  by_cases h5 : (merr.isSome || !mfound) = true
  · simp [h5] at hsucc
  · simp only [h5, if_false, Bool.false_eq_true] at hsucc
    cases h6 : marketLoad mact with
    | error e => simp [h6] at hsucc
    | ok ms =>
    simp only [h6] at hsucc
    cases h7 : verifyDeals ms maddr ts.ensureHeight pci.expiration with
    | error e => simp [h7] at hsucc
    | ok wvw =>
    rcases wvw with ⟨w, vw⟩
    simp only [h7] at hsucc
    rcases h8 : getActor sTree powerAddr with ⟨pact, pfound, perr⟩
    simp only [h8] at hsucc
    by_cases h9 : (perr.isSome || !pfound) = true
    · simp [h9] at hsucc
    · simp only [h9, if_false, Bool.false_eq_true] at hsucc
      cases h10 : powerLoad pact with
      | error e => simp [h10] at hsucc
      | ok ps =>
      simp only [h10] at hsucc
      cases h11 : totalPowerSmoothed ps with
      | error e => simp [h11] at hsucc
      | ok powerSmoothed =>
      simp only [h11] at hsucc
      rcases h12 : getActor sTree rewardAddr with ⟨ract, rfound, rerr⟩
      simp only [h12] at hsucc
      by_cases h13 : (rerr.isSome || !rfound) = true
      · simp [h13] at hsucc
      · simp only [h13, if_false, Bool.false_eq_true] at hsucc
        cases h14 : rewardLoad ract with
        | error e => simp [h14] at hsucc
        | ok rewardState =>
        simp only [h14] at hsucc
        cases h15 : preCommitDepositForPower rewardState powerSmoothed
            (qaPowerForWeight ssize (pci.expiration - ts.ensureHeight) w vw) with
        | error e => simp [h15] at hsucc
        | ok deposit =>
        simp only [h15, Prod.mk.injEq] at hsucc
        exact ⟨rfl, rfl, rewardState, powerSmoothed,
          qaPowerForWeight ssize (pci.expiration - ts.ensureHeight) w vw, deposit,
          h15, hsucc.1.symm⟩

/-- Witness for C10: with all collaborators succeeding and a computed
deposit of 1000, the returned value is 1000 · 110 / 100 = 1100. -/
theorem preCommitDeposit_markup_witness :
    initialPledgeNum = 110 ∧ initialPledgeDen = 100 ∧
    ∃ rs fe sw deposit,
      (fun (_ : RewardState) (_ : FilterEstimate) (_ : Int) =>
          (.ok 1000 : Except GoErr Int)) rs fe sw = .ok deposit ∧
      (1100 : Int) = Int.ediv (deposit * initialPledgeNum) initialPledgeDen :=
  preCommitDeposit_markup (fun _ => .ok ⟨10, 0⟩) (fun _ => .ok 0) (.ok 32)
    (fun _ _ => (0, true, none)) (fun _ => .ok 0) (fun _ _ _ _ => .ok (1, 2))
    (fun _ _ _ _ => 6) (fun _ => .ok 0) (fun _ => .ok 0) (fun _ => .ok 0)
    (fun _ _ _ => .ok 1000) 1 ⟨20⟩ ⟨[1]⟩ 1100 rfl
